import Mathlib

/-!
Verification of the vrp local-search engine (src/src): data model, route
evaluator, travel-constraint model and the 2-opt / 3-opt neighbourhood
operators, embedded shallowly in Lean 4.

The source computes with machine floats; here the distance values live in
an arbitrary linear ordered commutative ring `α` (the code only adds,
multiplies, subtracts and compares distances), and the Euclidean distance
provider (whose source file is absent from src) is an abstract parameter
`d : Node → Node → α`, so every theorem below holds for the Euclidean
distance in particular.  Witnesses instantiate `α := ℤ` on a registry all
of whose pairwise Euclidean distances are integers.
-/

/-- Embeds `schemas/node.py`: `Node(BaseModel)` with fields `id : int`,
`x : float`, `y : float`; frozen (immutable value).  Coordinates are kept
as rationals; no claim computes with them directly (the distance provider
is abstract). -/
structure Node where
  id : Int
  x : ℚ
  y : ℚ
  deriving DecidableEq, Repr, Inhabited

/-- Embeds `schemas/route.py`: `Route(BaseModel)` with required fields
`name : str` and `sequence : list[Node]`. -/
structure Route where
  name : String
  sequence : List Node
  deriving DecidableEq, Repr

/-- Embeds `Route.copy` (`schemas/route.py` line 29): a new `Route` with
`name` and a shallow copy of `sequence` — value-identical. -/
def Route.copy (r : Route) : Route :=
  ⟨r.name, r.sequence⟩

/-- Models pydantic validation of the `Route(...)` constructor: `name` has
no default value, so a construction that omits it raises a
`ValidationError` instead of producing a route. -/
def Route.validate (name? : Option String) (sequence : List Node) : Except String Route :=
  match name? with
  | some n => .ok ⟨n, sequence⟩
  | none => .error "ValidationError: Field required: name"

/-- Modelled from the spec: the Point Registry (`NodeManager`, source file
absent from src): holds the immutable set of points indexed by identifier;
`nodes` lists the registry's points in insertion order and
`all_node_ids` returns their identifiers. -/
structure NodeManager where
  nodes : List Node
  deriving DecidableEq, Repr

/-- Embeds `datastore/edge_manager.py` state: the node dictionary (listed in
insertion order, one entry per id) and the two toggleable directional
constraint flags. -/
structure EdgeManager where
  nodes : List Node
  respect_even_to_odd_travel_constraint : Bool
  respect_odd_to_even_travel_constraint : Bool
  deriving DecidableEq, Repr

/-- Embeds `EdgeManager.is_edge_valid` (`datastore/edge_manager.py` lines
35-61).  `n` is `len(self.nodes)` (total point count); Python's
`node_from.id < n / 2` over float division is `2 * id < n` over the
integers, and `id >= n / 2` is `2 * id ≥ n`. -/
def EdgeManager.is_edge_valid (em : EdgeManager) (node_from node_to : Node) : Bool :=
  if node_from.id = 0 ∨ node_to.id = 0 then
    true
  else if node_from.id = (em.nodes.length : Int) - 1 then
    node_to.id == 0
  else
    let n : Int := (em.nodes.length : Int)
    if em.respect_even_to_odd_travel_constraint ∧
        node_from.id % 2 = 0 ∧ node_to.id % 2 = 1 ∧ 2 * node_from.id < n then
      false
    else if em.respect_odd_to_even_travel_constraint ∧
        node_from.id % 2 = 1 ∧ node_to.id % 2 = 0 ∧ 2 * node_from.id ≥ n then
      false
    else
      true

/-! ## Route evaluator (`eval/route_eval.py`) -/

/-- `MIN_ROUTE_NODES` (`eval/route_eval.py` line 9). -/
def MIN_ROUTE_NODES : Nat := 2

section Evaluator

variable {α : Type} [LinearOrderedCommRing α]

/-- Embeds the nested loop of `get_l_value` (`eval/route_eval.py` lines
29-34): `for i, node1 in enumerate(all_nodes): for node2 in
all_nodes[i+1:]: m = max(m, dist(node1, node2))`, threading the running
maximum `m` (initially `0.0`). -/
def maxDistanceLoop (d : Node → Node → α) : List Node → α → α
  | [], m => m
  | x :: xs, m => maxDistanceLoop d xs (xs.foldl (fun acc y => max acc (d x y)) m)

/-- Embeds `get_l_value` (`eval/route_eval.py` lines 12-36):
`L = max(d_ij) * n` with `n = len(node_manager.nodes) - 2`. -/
def get_l_value (nm : NodeManager) (d : Node → Node → α) : α :=
  maxDistanceLoop d nm.nodes 0 * (((nm.nodes.length : Int) - 2 : Int) : α)

/-- The route's consecutive-pair distances, in order (the `distances` list
accumulated by the loop of `total_distance_and_distances`; also claim C1's
`edge_distances`). -/
def edgeDistances (d : Node → Node → α) (r : Route) : List α :=
  (r.sequence.zip r.sequence.tail).map fun p => d p.1 p.2

/-- Embeds `RouteEvaluator.total_distance_and_distances`
(`eval/route_eval.py` lines 60-79): consecutive-pair distances in order and
their running sum; `(0, [])` for fewer than `MIN_ROUTE_NODES` points. -/
def total_distance_and_distances (d : Node → Node → α) (r : Route) : α × List α :=
  if r.sequence.length < MIN_ROUTE_NODES then (0, [])
  else
    let distances := edgeDistances d r
    let total := distances.foldl (· + ·) 0
    if distances = [] then (0, []) else (total, distances)

/-- Embeds `RouteEvaluator.calculate_objective_value` (`eval/route_eval.py`
lines 85-124): `L·Δ + D`.  Python's `max(distances)` / `min(distances)`
raise `ValueError` on an empty list; the raise is modelled by `none`. -/
def calculate_objective_value (nm : NodeManager) (d : Node → Node → α) (r : Route) :
    Option α :=
  let td := total_distance_and_distances d r
  match td.2.max?, td.2.min? with
  | some maxD, some minD =>
    some (get_l_value nm d * (maxD - minD) + td.1)
  | _, _ => none

end Evaluator

/-- Embeds the per-pair constraint test inside `RouteEvaluator.is_valid_route`
(`eval/route_eval.py` lines 176-203): pairs with a depot endpoint (id `0` or
`n+1`) are skipped; otherwise even→odd with `2·from < n` and odd→even with
`2·from ≥ n` are forbidden (`n` here is the registry size minus 2). -/
def validPairCheck (n : Int) (current next : Node) : Bool :=
  if current.id = 0 ∨ current.id = n + 1 then true
  else if next.id = 0 ∨ next.id = n + 1 then true
  else if current.id % 2 = 0 ∧ next.id % 2 = 1 ∧ 2 * current.id < n then false
  else if current.id % 2 = 1 ∧ next.id % 2 = 0 ∧ 2 * current.id ≥ n then false
  else true

/-- Embeds `RouteEvaluator.is_valid_route` (`eval/route_eval.py` lines
126-206) as the conjunction of its early-return checks; the comparison of
the two sorted id lists is a permutation test (`List.isPerm`). -/
def is_valid_route (nm : NodeManager) (r : Route) : Bool :=
  let seq := r.sequence
  let n : Int := (nm.nodes.length : Int) - 2
  decide (MIN_ROUTE_NODES ≤ seq.length) &&
  (seq.headI.id == 0) &&
  (seq.getLastI.id == n + 1) &&
  ((seq.drop 1).dropLast.map Node.id).isPerm ((List.range' 1 n.toNat).map Int.ofNat) &&
  (seq.zip seq.tail).all fun p => validPairCheck n p.1 p.2

/-! ## Randomness (`random.SystemRandom`) -/

/-- Models the operating-system entropy source behind `random.SystemRandom`:
for each call index and each `randint(lo, hi)` request it yields some
integer. -/
def Entropy : Type := Nat → Int → Int → Int

/-- Models a `random.SystemRandom` instance: a position in the OS entropy
stream.  It holds no seed — `SystemRandom.seed` is a no-op. -/
structure SystemRandom where
  entropy : Entropy
  pos : Nat

/-- Models `random.SystemRandom(x=seed)`: the seed argument `x` is accepted
but ignored (the class documents that `seed()` does nothing); draws come
from the OS entropy source. -/
def SystemRandom.new (entropy : Entropy) (_x : Int) : SystemRandom :=
  ⟨entropy, 0⟩

/-- Models `SystemRandom.randint(lo, hi)`: draw the next value from the
entropy stream and advance. -/
def SystemRandom.randint (g : SystemRandom) (lo hi : Int) : Int × SystemRandom :=
  (g.entropy g.pos lo hi, ⟨g.entropy, g.pos + 1⟩)

/-! ## 2-opt operator (`optimiser/iterative/operations/two_opt_swap.py`) -/

/-- `MIN_ROUTE_LENGTH` of `two_opt_swap.py` (line 8). -/
def TWO_OPT_MIN_ROUTE_LENGTH : Nat := 4

/-- Embeds `TwoOptSwap.__init__` state (`two_opt_swap.py` lines 29-39):
the stored `rnd_seed` and the `SystemRandom` generator. -/
structure TwoOptSwap where
  rnd_seed : Int
  rnd_generator : SystemRandom

/-- Embeds `TwoOptSwap.__init__` (`two_opt_swap.py` lines 29-39):
`self.rnd_seed = rnd_seed; self.rnd_generator = SystemRandom(x=self.rnd_seed)`. -/
def TwoOptSwap.init (entropy : Entropy) (rnd_seed : Int) : TwoOptSwap :=
  { rnd_seed := rnd_seed, rnd_generator := SystemRandom.new entropy rnd_seed }

/-- Embeds the new sequence built by `TwoOptSwap.apply` (`two_opt_swap.py`
lines 97-101): `route.sequence[:v1] + list(reversed(route.sequence[v1:v2+1]))
+ route.sequence[v2+1:]`. -/
def twoOptSeq (seq : List Node) (v1 v2 : Nat) : List Node :=
  seq.take v1 ++ ((seq.drop v1).take (v2 + 1 - v1)).reverse ++ seq.drop (v2 + 1)

/-- Embeds `TwoOptSwap.apply` with both indices supplied (`two_opt_swap.py`
lines 61-106, explicit branch): length guard, swap to ensure `v1 < v2`,
index validation returning a copy, then the segment reversal. -/
def TwoOptSwap.applyExplicit (r : Route) (v1 v2 : Int) : Route :=
  let L := r.sequence.length
  if L < TWO_OPT_MIN_ROUTE_LENGTH then r.copy
  else
    let a := if v1 > v2 then v2 else v1
    let b := if v1 > v2 then v1 else v2
    if a < 1 ∨ (L : Int) - 1 ≤ b ∨ b ≤ a then r.copy
    else ⟨r.name, twoOptSeq r.sequence a.toNat b.toNat⟩

/-- Embeds `TwoOptSwap.apply` (`two_opt_swap.py` lines 41-106) with
optional indices: `if v1 is None or v2 is None` both are drawn from the
generator (`randint(1, L-3)` then `randint(v1+1, L-2)`); otherwise the
explicit branch runs and the generator is untouched. -/
def TwoOptSwap.apply (op : TwoOptSwap) (r : Route) (v1? v2? : Option Int) :
    Route × TwoOptSwap :=
  let L := r.sequence.length
  if L < TWO_OPT_MIN_ROUTE_LENGTH then (r.copy, op)
  else
    match v1?, v2? with
    | some v1, some v2 => (TwoOptSwap.applyExplicit r v1 v2, op)
    | _, _ =>
      let (v1, g1) := op.rnd_generator.randint 1 ((L : Int) - 3)
      let (v2, g2) := g1.randint (v1 + 1) ((L : Int) - 2)
      (⟨r.name, twoOptSeq r.sequence v1.toNat v2.toNat⟩, { op with rnd_generator := g2 })

/-- The parameterizations enumerated by `TwoOptSwap.apply_best_improvement`
and `apply_first_improvement` (`two_opt_swap.py` lines 132-133, 181-182), in
loop order: `for v1 in range(1, L-2): for v2 in range(v1+1, L-1)`. -/
def twoOptPairs (L : Nat) : List (Nat × Nat) :=
  (List.range' 1 (L - 3)).flatMap fun v1 =>
    (List.range' (v1 + 1) (L - 2 - v1)).map fun v2 => (v1, v2)

section Loops

variable {α : Type} [LinearOrderedCommRing α]

/-- Embeds the accumulation loop shared by both operators'
`apply_best_improvement`: for each candidate route in enumeration order,
skip it when `only_valid` and structurally invalid, evaluate its objective
(an exception — `none` — aborts the whole loop), and keep it when strictly
below the best value so far. -/
def bestLoop (nm : NodeManager) (d : Node → Node → α) (only_valid : Bool) :
    List Route → Route × α → Option (Route × α)
  | [], st => some st
  | nr :: rest, st =>
    if only_valid && !(is_valid_route nm nr) then bestLoop nm d only_valid rest st
    else
      match calculate_objective_value nm d nr with
      | none => none
      | some nv =>
        bestLoop nm d only_valid rest (if nv < st.2 then (nr, nv) else st)

/-- Embeds the scan loop shared by both operators'
`apply_first_improvement`: return the first candidate (in enumeration
order) whose objective is strictly below the input's value `v0`, skipping
structurally invalid candidates when `only_valid`; return `base` when the
enumeration is exhausted. -/
def firstLoop (nm : NodeManager) (d : Node → Node → α) (only_valid : Bool) (v0 : α)
    (base : Route) : List Route → Option Route
  | [] => some base
  | nr :: rest =>
    if only_valid && !(is_valid_route nm nr) then firstLoop nm d only_valid v0 base rest
    else
      match calculate_objective_value nm d nr with
      | none => none
      | some nv =>
        if nv < v0 then some nr else firstLoop nm d only_valid v0 base rest

end Loops

/-- The candidate routes enumerated by the 2-opt improvement searches, in
canonical order: `self.apply(route, v1=v1, v2=v2, inplace=False)` for each
enumerated `(v1, v2)` pair. -/
def twoOptCandidates (r : Route) : List Route :=
  (twoOptPairs r.sequence.length).map fun p =>
    TwoOptSwap.applyExplicit r (p.1 : Int) (p.2 : Int)

section TwoOptLoops

variable {α : Type} [LinearOrderedCommRing α]

/-- Embeds `TwoOptSwap.apply_best_improvement` (`two_opt_swap.py` lines
108-158): start from `(route.copy(), objective(route))` and fold the
enumerated candidates; a raised objective evaluation is `none`. -/
def TwoOptSwap.apply_best_improvement (nm : NodeManager) (d : Node → Node → α)
    (r : Route) (only_valid : Bool) : Option Route :=
  match calculate_objective_value nm d r with
  | none => none
  | some v0 =>
    (bestLoop nm d only_valid (twoOptCandidates r) (r.copy, v0)).map (·.1)

/-- Embeds `TwoOptSwap.apply_first_improvement` (`two_opt_swap.py` lines
160-198): return the first enumerated candidate strictly improving on the
input's objective, or the input route itself. -/
def TwoOptSwap.apply_first_improvement (nm : NodeManager) (d : Node → Node → α)
    (r : Route) (only_valid : Bool) : Option Route :=
  match calculate_objective_value nm d r with
  | none => none
  | some v0 =>
    firstLoop nm d only_valid v0 r (twoOptCandidates r)

end TwoOptLoops

/-! ## 3-opt operator (`optimiser/iterative/operations/three_opt_swap.py`) -/

/-- `MIN_ROUTE_LENGTH` of `three_opt_swap.py` (line 8). -/
def THREE_OPT_MIN_ROUTE_LENGTH : Nat := 6

/-- Embeds `ThreeOptSwap.__init__` state (`three_opt_swap.py` lines 39-49). -/
structure ThreeOptSwap where
  rnd_seed : Int
  rnd_generator : SystemRandom

/-- Embeds `ThreeOptSwap.__init__` (`three_opt_swap.py` lines 39-49):
`self.rnd_seed = rnd_seed; self.rnd_generator = SystemRandom(x=self.rnd_seed)`. -/
def ThreeOptSwap.init (entropy : Entropy) (rnd_seed : Int) : ThreeOptSwap :=
  { rnd_seed := rnd_seed, rnd_generator := SystemRandom.new entropy rnd_seed }

/-- Embeds `ThreeOptSwap._get_all_reconnections` (`three_opt_swap.py` lines
51-88): the eight reconnections of the four segments, in list order 0-7. -/
def getAllReconnections (a b c dseg : List Node) : List (List Node) :=
  [a ++ b ++ c ++ dseg,
   a ++ b ++ c.reverse ++ dseg,
   a ++ b.reverse ++ c ++ dseg,
   a ++ c ++ b ++ dseg,
   a ++ b.reverse ++ c.reverse ++ dseg,
   a ++ c ++ b.reverse ++ dseg,
   a ++ c.reverse ++ b ++ dseg,
   a ++ c.reverse ++ b.reverse ++ dseg]

/-- Embeds the segment extraction of `ThreeOptSwap.apply` (`three_opt_swap.py`
lines 152-156): `route.sequence[:v1]`, `[v1:v2]`, `[v2:v3]`, `[v3:]`. -/
def threeOptSegments (seq : List Node) (v1 v2 v3 : Nat) :
    List Node × List Node × List Node × List Node :=
  (seq.take v1, (seq.drop v1).take (v2 - v1), (seq.drop v2).take (v3 - v2), seq.drop v3)

/-- Embeds the construction of the new route in `ThreeOptSwap.apply`
(`three_opt_swap.py` lines 152-181): extract the four segments and pick
`all_reconnections[reconnection_type]`. -/
def threeOptBuild (r : Route) (v1 v2 v3 rt : Int) : Route :=
  let s := threeOptSegments r.sequence v1.toNat v2.toNat v3.toNat
  ⟨r.name, (getAllReconnections s.1 s.2.1 s.2.2.1 s.2.2.2).getD rt.toNat r.sequence⟩

/-- Embeds `ThreeOptSwap.apply` with all three indices supplied
(`three_opt_swap.py` lines 114-181, explicit branch): length guard,
`sorted([v1, v2, v3])` (the smallest, middle and largest of the three),
index validation, reconnection-type validation, then the rebuild. -/
def ThreeOptSwap.applyExplicit (r : Route) (v1 v2 v3 rt : Int) : Route :=
  let L := r.sequence.length
  if L < THREE_OPT_MIN_ROUTE_LENGTH then r.copy
  else
    let a := min v1 (min v2 v3)
    let c := max v1 (max v2 v3)
    let b := v1 + v2 + v3 - a - c
    if a < 1 ∨ (L : Int) - 1 ≤ c ∨ ¬(a < b ∧ b < c) then r.copy
    else if ¬(0 ≤ rt ∧ rt ≤ 7) then r.copy
    else threeOptBuild r a b c rt

/-- Embeds the reconnection-type phase of `ThreeOptSwap.apply`
(`three_opt_swap.py` lines 140-181): `None` draws `randint(1, 7)`
(type 0 skipped); an out-of-range explicit type returns a copy. -/
def threeOptPhase2 (op : ThreeOptSwap) (r : Route) (a b c : Int) (rt? : Option Int) :
    Route × ThreeOptSwap :=
  match rt? with
  | none =>
    let (rt, g) := op.rnd_generator.randint 1 7
    (threeOptBuild r a b c rt, { op with rnd_generator := g })
  | some rt =>
    if ¬(0 ≤ rt ∧ rt ≤ 7) then (r.copy, op)
    else (threeOptBuild r a b c rt, op)

/-- Embeds `ThreeOptSwap.apply` (`three_opt_swap.py` lines 90-181) with
optional parameters: `if v1 is None or v2 is None or v3 is None` all three
cut points are drawn (`randint(1, L-5)`, `randint(v1+1, L-3)`,
`randint(v2+1, L-2)`); otherwise the explicit triple is sorted and
validated; then the reconnection type is selected. -/
def ThreeOptSwap.apply (op : ThreeOptSwap) (r : Route) (v1? v2? v3? rt? : Option Int) :
    Route × ThreeOptSwap :=
  let L := r.sequence.length
  if L < THREE_OPT_MIN_ROUTE_LENGTH then (r.copy, op)
  else
    match v1?, v2?, v3? with
    | some v1, some v2, some v3 =>
      let a := min v1 (min v2 v3)
      let c := max v1 (max v2 v3)
      let b := v1 + v2 + v3 - a - c
      if a < 1 ∨ (L : Int) - 1 ≤ c ∨ ¬(a < b ∧ b < c) then (r.copy, op)
      else threeOptPhase2 op r a b c rt?
    | _, _, _ =>
      let (v1, g1) := op.rnd_generator.randint 1 ((L : Int) - 5)
      let (v2, g2) := g1.randint (v1 + 1) ((L : Int) - 3)
      let (v3, g3) := g2.randint (v2 + 1) ((L : Int) - 2)
      threeOptPhase2 { op with rnd_generator := g3 } r v1 v2 v3 rt?

/-- The parameterizations enumerated by `ThreeOptSwap.apply_best_improvement`
and `apply_first_improvement` (`three_opt_swap.py` lines 208-212, 271-275),
in loop order: `for v1 in range(1, L-4): for v2 in range(v1+1, L-2): for v3
in range(v2+1, L-1): for reconnection_type in range(1, 8)`. -/
def threeOptParams (L : Nat) : List (Nat × Nat × Nat × Nat) :=
  (List.range' 1 (L - 5)).flatMap fun v1 =>
    (List.range' (v1 + 1) (L - 3 - v1)).flatMap fun v2 =>
      (List.range' (v2 + 1) (L - 2 - v2)).flatMap fun v3 =>
        (List.range' 1 7).map fun t => (v1, v2, v3, t)

/-- The candidate routes enumerated by the 3-opt improvement searches, in
canonical order: `self.apply(route, v1=v1, v2=v2, v3=v3,
reconnection_type=t, inplace=False)` for each enumerated quadruple. -/
def threeOptCandidates (r : Route) : List Route :=
  (threeOptParams r.sequence.length).map fun p =>
    ThreeOptSwap.applyExplicit r (p.1 : Int) (p.2.1 : Int) (p.2.2.1 : Int) (p.2.2.2 : Int)

section ThreeOptLoops

variable {α : Type} [LinearOrderedCommRing α]

/-- Embeds `ThreeOptSwap.apply_best_improvement` (`three_opt_swap.py` lines
183-247). -/
def ThreeOptSwap.apply_best_improvement (nm : NodeManager) (d : Node → Node → α)
    (r : Route) (only_valid : Bool) : Option Route :=
  match calculate_objective_value nm d r with
  | none => none
  | some v0 =>
    (bestLoop nm d only_valid (threeOptCandidates r) (r.copy, v0)).map (·.1)

/-- Embeds `ThreeOptSwap.apply_first_improvement` (`three_opt_swap.py` lines
249-300). -/
def ThreeOptSwap.apply_first_improvement (nm : NodeManager) (d : Node → Node → α)
    (r : Route) (only_valid : Bool) : Option Route :=
  match calculate_objective_value nm d r with
  | none => none
  | some v0 =>
    firstLoop nm d only_valid v0 r (threeOptCandidates r)

end ThreeOptLoops

/-! ## Local-search orchestrator (`optimiser/iterative/local_search.py`) -/

/-- Embeds the no-seed guard of `LocalSearchImprover.optimise`
(`local_search.py` lines 67-71): with no seed routes it logs a warning and
evaluates `Route(sequence=[])`, a pydantic construction that omits the
required field `name`.  `body` abstracts the remainder of the method (lines
73-111), which depends on source files absent from src (`Relocate`,
`Termination`, `Callback`). -/
def LocalSearchImprover.optimise (seed_routes : List Route)
    (body : Except String Route) : Except String Route :=
  if seed_routes.isEmpty then Route.validate none []
  else body

/-! ## Spec-side definitions: the claims' own wording, to be compared with
the embedded source functions -/

/-- All unordered pairs of elements of a list (each pair of distinct
positions once). -/
def unorderedPairs {β : Type} : List β → List (β × β)
  | [] => []
  | x :: xs => (xs.map fun y => (x, y)) ++ unorderedPairs xs

/-- Claim C1's reference term: the maximum distance over all unordered
point pairs in the registry (at least the initial `0`). -/
def maxPairwiseDistance {α : Type} [LinearOrderedCommRing α] (nm : NodeManager)
    (d : Node → Node → α) : α :=
  ((unorderedPairs nm.nodes).map fun p => d p.1 p.2).foldl max 0

/-- Claim C2's conditions, as worded: at least 2 points; first id `0`; last
id `n+1` with `n` the registry size minus 2; the multiset of intermediate
ids is exactly `{1..n}`; and no consecutive non-depot pair violates either
directional rule. -/
def ValidRouteSpec (nm : NodeManager) (r : Route) : Prop :=
  let n : Int := (nm.nodes.length : Int) - 2
  2 ≤ r.sequence.length ∧
  (∃ x, r.sequence.head? = some x ∧ x.id = 0) ∧
  (∃ y, r.sequence.getLast? = some y ∧ y.id = n + 1) ∧
  (((r.sequence.drop 1).dropLast.map Node.id : Multiset Int) =
    (((List.range' 1 n.toNat).map Int.ofNat : List Int) : Multiset Int)) ∧
  ∀ p ∈ r.sequence.zip r.sequence.tail,
    (p.1.id ≠ 0 ∧ p.1.id ≠ n + 1 ∧ p.2.id ≠ 0 ∧ p.2.id ≠ n + 1) →
      ¬(p.1.id % 2 = 0 ∧ p.2.id % 2 = 1 ∧ 2 * p.1.id < n) ∧
      ¬(p.1.id % 2 = 1 ∧ p.2.id % 2 = 0 ∧ 2 * p.1.id ≥ n)

/-- Claim C3's rule, as worded: with `n + 1` the destination depot id
(registry size minus 1), an edge departing from the last
intermediate-ordered point (id `n`) is valid only toward the destination
depot; otherwise any edge with a depot endpoint is valid; all other pairs
are governed solely by the two toggleable directional rules with `n_total`
the total point count. -/
def edgeValidClaimC3 (em : EdgeManager) (node_from node_to : Node) : Bool :=
  let total : Int := (em.nodes.length : Int)
  let n : Int := total - 2
  if node_from.id = n then
    node_to.id == n + 1
  else if node_from.id = 0 ∨ node_from.id = n + 1 ∨ node_to.id = 0 ∨ node_to.id = n + 1 then
    true
  else if em.respect_even_to_odd_travel_constraint ∧
      node_from.id % 2 = 0 ∧ node_to.id % 2 = 1 ∧ 2 * node_from.id < total then
    false
  else if em.respect_odd_to_even_travel_constraint ∧
      node_from.id % 2 = 1 ∧ node_to.id % 2 = 0 ∧ 2 * node_from.id ≥ total then
    false
  else
    true

/-- What `EdgeManager.is_edge_valid` actually implements (claim C3
amended): true whenever either endpoint has id `0`; otherwise a departure
from the point with id `total - 1` (the destination depot) is always
invalid, its only permitted target (id `0`) being covered by the first
rule; every other pair — including edges into the destination depot — is
governed solely by the two toggleable directional rules. -/
def edgeValidAmendedC3 (em : EdgeManager) (node_from node_to : Node) : Bool :=
  let total : Int := (em.nodes.length : Int)
  if node_from.id = 0 ∨ node_to.id = 0 then true
  else if node_from.id = total - 1 then false
  else
    !(em.respect_even_to_odd_travel_constraint &&
        node_from.id % 2 == 0 && node_to.id % 2 == 1 && decide (2 * node_from.id < total)) &&
    !(em.respect_odd_to_even_travel_constraint &&
        node_from.id % 2 == 1 && node_to.id % 2 == 0 && decide (2 * node_from.id ≥ total))

/-- Claim C5's test for a candidate: structurally valid when `only_valid`
requires it, and with objective value strictly below the input's `v0`. -/
def improvingCandidate {α : Type} [LinearOrderedCommRing α] (nm : NodeManager)
    (d : Node → Node → α) (only_valid : Bool) (v0 : α) (c : Route) : Bool :=
  (!only_valid || is_valid_route nm c) &&
  (match calculate_objective_value nm d c with
   | some nv => decide (nv < v0)
   | none => false)

section SanityChecks

def nodeA : Node := ⟨0, 0, 0⟩
def nodeB : Node := ⟨1, 3, 0⟩
def nodeC : Node := ⟨2, 3, 4⟩
def nodeD : Node := ⟨3, 0, 4⟩

/-- The 3-4-5 rectangle registry: origin `(0,0)`, intermediates `(3,0)`,
`(3,4)`, destination `(0,4)`; every pairwise Euclidean distance is an
integer. -/
def nm4 : NodeManager := ⟨[nodeA, nodeB, nodeC, nodeD]⟩

/-- Exact Euclidean distance table for the `nm4` registry. -/
def d4 : Node → Node → ℤ := fun a b =>
  if a.id = b.id then 0
  else if (a.id = 0 ∧ b.id = 1) ∨ (a.id = 1 ∧ b.id = 0) then 3
  else if (a.id = 0 ∧ b.id = 2) ∨ (a.id = 2 ∧ b.id = 0) then 5
  else if (a.id = 0 ∧ b.id = 3) ∨ (a.id = 3 ∧ b.id = 0) then 4
  else if (a.id = 1 ∧ b.id = 2) ∨ (a.id = 2 ∧ b.id = 1) then 4
  else if (a.id = 1 ∧ b.id = 3) ∨ (a.id = 3 ∧ b.id = 1) then 5
  else 3

/-- A structurally valid route on `nm4`: `0-2-1-3`. -/
def r0 : Route := ⟨"r0", [nodeA, nodeC, nodeB, nodeD]⟩

/-- Six nodes with ids `0..5` (registry size 6: `n = 4`, destination depot
id `5`, last intermediate id `4`). -/
def node6 (i : Int) : Node := ⟨i, i, 0⟩

/-- An edge manager over the six-node registry with both directional
constraints enabled. -/
def em6 : EdgeManager :=
  ⟨[node6 0, node6 1, node6 2, node6 3, node6 4, node6 5], true, true⟩

/-- A five-node route (ids `0..4`). -/
def r5 : Route := ⟨"r5", [node6 0, node6 1, node6 2, node6 3, node6 4]⟩

/-- A six-node route (ids `0..5`). -/
def r6 : Route := ⟨"r6", [node6 0, node6 1, node6 2, node6 3, node6 4, node6 5]⟩

/-- An entropy stream whose every `randint(lo, hi)` draw returns `lo`. -/
def entropyLo : Entropy := fun _ lo _ => lo

/-- An entropy stream whose every `randint(lo, hi)` draw returns `hi`. -/
def entropyHi : Entropy := fun _ _ hi => hi

example : is_valid_route nm4 r0 = true := by decide
example : is_valid_route nm4 ⟨"bad", [nodeA, nodeB, nodeC, nodeD]⟩ = false := by decide
example : get_l_value nm4 d4 = 10 := by decide
example : calculate_objective_value nm4 d4 r0 = some 24 := by decide
example : calculate_objective_value nm4 d4 ⟨"short", [nodeA]⟩ = none := by decide
example : twoOptPairs 4 = [(1, 2)] := by decide
example : twoOptPairs 5 = [(1, 2), (1, 3), (2, 3)] := by decide
example : (threeOptParams 6).map (fun p => (p.1, p.2.1, p.2.2.1)) =
    ((List.range' 1 7).map fun _ => (1, 2, 3)) ++
    ((List.range' 1 7).map fun _ => (1, 2, 4)) ++
    ((List.range' 1 7).map fun _ => (1, 3, 4)) := by decide
example : (TwoOptSwap.applyExplicit r0 1 2).sequence = [nodeA, nodeB, nodeC, nodeD] := by
  decide
example : (TwoOptSwap.applyExplicit r0 2 1).sequence = [nodeA, nodeB, nodeC, nodeD] := by
  decide
example : (TwoOptSwap.applyExplicit r0 0 2).sequence = r0.sequence := by decide
example : TwoOptSwap.apply_best_improvement nm4 d4 r0 true = some r0.copy := by decide
example :
    TwoOptSwap.apply_first_improvement nm4 d4 ⟨"bad", [nodeA, nodeC, nodeB, nodeD]⟩ false =
      some ⟨"bad", [nodeA, nodeB, nodeC, nodeD]⟩ := by decide
example :
    ThreeOptSwap.apply_best_improvement nm4 d4 r0 true = some r0.copy := by decide
example : LocalSearchImprover.optimise [] (.ok r0) =
    .error "ValidationError: Field required: name" := rfl

end SanityChecks

/-! ## Claim C2 -/

/-- The per-pair check of `is_valid_route` holds exactly when, for a pair
with no depot endpoint, neither directional rule fires. -/
theorem validPairCheck_iff (n : Int) (c nx : Node) :
    validPairCheck n c nx = true ↔
      ((c.id ≠ 0 ∧ c.id ≠ n + 1 ∧ nx.id ≠ 0 ∧ nx.id ≠ n + 1) →
        ¬(c.id % 2 = 0 ∧ nx.id % 2 = 1 ∧ 2 * c.id < n) ∧
        ¬(c.id % 2 = 1 ∧ nx.id % 2 = 0 ∧ 2 * c.id ≥ n)) := by
  unfold validPairCheck
  split_ifs with h1 h2 h3 h4 <;> simp_all <;> tauto

/-- `is_valid_route` decides exactly the conjunction of claim C2's five
conditions. -/
theorem is_valid_route_iff (nm : NodeManager) (r : Route) :
    is_valid_route nm r = true ↔ ValidRouteSpec nm r := by
  simp only [is_valid_route, ValidRouteSpec, Bool.and_eq_true, decide_eq_true_eq,
    beq_iff_eq, List.all_eq_true, List.isPerm_iff, ← Multiset.coe_eq_coe]
  constructor
  · rintro ⟨⟨⟨⟨hl, hh⟩, hg⟩, hperm⟩, hpair⟩
    cases hseq : r.sequence with
    | nil =>
      rw [hseq] at hl
      simp [MIN_ROUTE_NODES] at hl
    | cons a t =>
      rw [hseq] at hl hh hg hperm hpair
      refine ⟨hl, ⟨a, rfl, by simpa using hh⟩, ?_, hperm, ?_⟩
      · cases hy : (a :: t).getLast? with
        | none => simp at hy
        | some y =>
          refine ⟨y, rfl, ?_⟩
          have hI := List.getLastI_eq_getLast? (a :: t)
          rw [hy] at hI
          rw [hI] at hg
          exact hg
      · intro p hp
        exact (validPairCheck_iff _ p.1 p.2).mp (hpair p hp)
  · rintro ⟨hl, ⟨x, hx, hxid⟩, ⟨y, hy, hyid⟩, hperm, hpair⟩
    cases hseq : r.sequence with
    | nil =>
      rw [hseq] at hl
      simp at hl
    | cons a t =>
      rw [hseq] at hl hx hy hperm hpair
      have hax : a = x := by
        have : some a = some x := hx
        exact Option.some.inj this
      refine ⟨⟨⟨⟨hl, by simpa [hax] using hxid⟩, ?_⟩, hperm⟩, ?_⟩
      · have hI := List.getLastI_eq_getLast? (a :: t)
        rw [hy] at hI
        rw [hI]
        exact hyid
      · intro p hp
        exact (validPairCheck_iff _ p.1 p.2).mpr (hpair p hp)

/-- Claim C2: `is_valid_route` returns true exactly when the route has at
least 2 points, starts at id `0`, ends at id `n+1` (with `n` the
registry's point count minus 2), visits the intermediate ids `{1..n}` as
an exact multiset, and no consecutive non-depot pair violates either
directional rule (first conjunct); and replacing any single intermediate
point so that another intermediate id appears twice makes the route
invalid (second conjunct). -/
theorem claim_C2 (nm : NodeManager) :
    (∀ r : Route, is_valid_route nm r = true ↔ ValidRouteSpec nm r) ∧
    (∀ (r : Route) (i j : Nat) (p : Node),
      1 ≤ i → i ≤ r.sequence.length - 2 → 1 ≤ j → j ≤ r.sequence.length - 2 →
      i ≠ j → (∃ q, r.sequence[j]? = some q ∧ q.id = p.id) →
      is_valid_route nm ⟨r.name, r.sequence.set i p⟩ = false) := by
  constructor
  · exact is_valid_route_iff nm
  · intro r i j p hi1 hi2 hj1 hj2 hij ⟨q, hq, hqid⟩
    obtain ⟨hjlt, hqval⟩ := List.getElem?_eq_some_iff.mp hq
    cases hvb : is_valid_route nm ⟨r.name, r.sequence.set i p⟩ with
    | false => rfl
    | true =>
      exfalso
      set L := r.sequence.length with hL
      have hL4 : 4 ≤ L := by omega
      set s' := r.sequence.set i p with hs'
      have hs'len : s'.length = L := by simp [hs']
      set l' := ((s'.drop 1).dropLast.map Node.id) with hl'
      have hl'len : l'.length = L - 2 := by
        rw [hl']
        simp only [List.length_map, List.length_dropLast, List.length_drop, hs'len]
        omega
      simp only [is_valid_route, Bool.and_eq_true] at hvb
      have hperm : List.Perm l'
          ((List.range' 1 ((nm.nodes.length : Int) - 2).toNat).map Int.ofNat) :=
        List.isPerm_iff.mp hvb.1.2
      have hnodup : l'.Nodup := by
        refine hperm.nodup_iff.mpr ?_
        exact (List.nodup_range' _ _).map (fun a b hab => Int.ofNat_inj.mp hab)
      have hib : i - 1 < l'.length := by omega
      have hgetl' : ∀ k : Nat, 1 ≤ k → k ≤ L - 2 →
          l'[k - 1]? = (s'[k]?).map Node.id := by
        intro k hk1 hk2
        rw [hl', List.getElem?_map, List.getElem?_dropLast,
          if_pos (show k - 1 < (List.drop 1 s').length - 1 by
            simp only [List.length_drop, hs'len]; omega),
          List.getElem?_drop]
        congr 2
        omega
      have hgi : l'[i - 1]? = some p.id := by
        rw [hgetl' i hi1 hi2, hs', List.getElem?_set_self (by omega)]
        rfl
      have hgj : l'[j - 1]? = some p.id := by
        rw [hgetl' j hj1 hj2, hs', List.getElem?_set_ne hij, hq]
        simp [hqid]
      have : i - 1 = j - 1 := List.getElem?_inj hib hnodup (by rw [hgi, hgj])
      omega

/-- Witness for claim C2: the validity decomposition instantiated on the
rectangle registry, and the concrete duplication `0-2-1-3 ↦ 0-1-1-3`
(intermediate id `1` appears twice) rejected by `is_valid_route`. -/
theorem claim_C2_witness :
    (is_valid_route nm4 r0 = true ↔ ValidRouteSpec nm4 r0) ∧
    is_valid_route nm4 ⟨"r0", r0.sequence.set 1 nodeB⟩ = false :=
  ⟨(claim_C2 nm4).1 r0,
   (claim_C2 nm4).2 r0 1 2 nodeB (by decide) (by decide) (by decide) (by decide)
     (by decide) ⟨nodeB, by decide, rfl⟩⟩

/-! ## Claim C7 -/

/-- Claim C7 (code bug): the claim states that `optimise()` with no seed
routes logs a warning and returns an empty route without throwing; the
code's `return Route(sequence=[])` omits the required pydantic field
`name`, so the call raises a `ValidationError` instead of returning.  This
theorem evaluates the no-seed branch: whatever the rest of the method
would do, the result is the validation error, not a route. -/
theorem claim_C7_code_bug (body : Except String Route) :
    LocalSearchImprover.optimise [] body =
      .error "ValidationError: Field required: name" :=
  rfl

/-! ## Claim C8 -/

/-- Claim C8 (code bug): the claim states that two operator instances
built with the same `rnd_seed` draw identical parameters (determinism in
the seed).  `random.SystemRandom` ignores its seed argument and draws from
the OS entropy source, so the result is a function of the entropy stream
and not of the seed: two instances with equal seeds but distinct entropy
streams return different routes (first two conjuncts), while changing the
seed with the entropy stream fixed never changes the result (third
conjunct). -/
theorem claim_C8_code_bug :
    (TwoOptSwap.init entropyLo 42).rnd_seed = (TwoOptSwap.init entropyHi 42).rnd_seed ∧
    ((TwoOptSwap.init entropyLo 42).apply r5 none none).1.sequence ≠
      ((TwoOptSwap.init entropyHi 42).apply r5 none none).1.sequence ∧
    ∀ rnd_seed : Int,
      ((TwoOptSwap.init entropyLo rnd_seed).apply r5 none none).1 =
        ((TwoOptSwap.init entropyLo 42).apply r5 none none).1 :=
  ⟨rfl, by decide, fun _ => rfl⟩

/-! ## Claim C10 -/

/-- Claim C10: when only part of the cut-point parameters is supplied
(exactly one of `v1`/`v2` for 2-opt; at least one of `v1`/`v2`/`v3` as
`None` for 3-opt), the supplied values are discarded and all cut points are
drawn afresh from the operator's random source — the result (route and
generator state alike) is the one obtained with no cut points supplied. -/
theorem claim_C10 :
    (∀ (op : TwoOptSwap) (r : Route) (a : Int),
      op.apply r (some a) none = op.apply r none none ∧
      op.apply r none (some a) = op.apply r none none) ∧
    (∀ (op : ThreeOptSwap) (r : Route) (v1? v2? v3? rt? : Option Int),
      v1? = none ∨ v2? = none ∨ v3? = none →
      op.apply r v1? v2? v3? rt? = op.apply r none none none rt?) := by
  constructor
  · intro op r a
    constructor <;>
      · unfold TwoOptSwap.apply
        split <;> first | rfl | simp_all
  · intro op r v1? v2? v3? rt? h
    cases v1? <;> cases v2? <;> cases v3? <;> simp_all <;> rfl

/-- Witness for claim C10: the partially supplied parameters are discarded
on concrete routes and a concrete operator. -/
theorem claim_C10_witness :
    (TwoOptSwap.init entropyLo 42).apply r5 (some 3) none =
      (TwoOptSwap.init entropyLo 42).apply r5 none none ∧
    (ThreeOptSwap.init entropyLo 42).apply r6 none (some 2) none none =
      (ThreeOptSwap.init entropyLo 42).apply r6 none none none none :=
  ⟨(claim_C10.1 (TwoOptSwap.init entropyLo 42) r5 3).1,
   claim_C10.2 (ThreeOptSwap.init entropyLo 42) r6 none (some 2) none none (Or.inl rfl)⟩

/-! ## Claim C3 -/

/-- Counterexample to claim C3: on the six-node registry, the edge from
the intermediate point `2` into the destination depot (id `5`) satisfies
the claim's rule (an endpoint is the destination depot and the exception
for the last intermediate, id `4`, does not apply), yet
`EdgeManager.is_edge_valid` rejects it: the code never exempts edges whose
*target* is the destination depot from the directional rules (`2` is even,
`5` is odd and `2·2 < 6`). -/
theorem claim_C3_counterexample :
    edgeValidClaimC3 em6 (node6 2) (node6 5) = true ∧
    EdgeManager.is_edge_valid em6 (node6 2) (node6 5) = false := by
  decide

/-- Claim C3, amended: `is_edge_valid` returns true whenever either
endpoint has id `0` (the origin depot); otherwise a departure from the
point with id `total − 1` — the destination depot, not the last
intermediate — is always invalid (its only permitted target, id `0`, is
covered by the first rule); every other pair, including edges *into* the
destination depot, is governed solely by the two toggleable directional
rules with `n` the total point count. -/
theorem claim_C3_amended (em : EdgeManager) (node_from node_to : Node) :
    EdgeManager.is_edge_valid em node_from node_to =
      edgeValidAmendedC3 em node_from node_to := by
  unfold EdgeManager.is_edge_valid edgeValidAmendedC3
  by_cases h1 : node_from.id = 0 ∨ node_to.id = 0
  · simp [h1]
  · have ht : ¬ node_to.id = 0 := fun hc => h1 (Or.inr hc)
    by_cases h2 : node_from.id = (em.nodes.length : Int) - 1
    · simp [h1, h2, ht]
    · by_cases p1 : (em.respect_even_to_odd_travel_constraint : Prop) ∧
          node_from.id % 2 = 0 ∧ node_to.id % 2 = 1 ∧
          2 * node_from.id < (em.nodes.length : Int)
      · simp only [if_neg h1, if_neg h2, if_pos p1]
        obtain ⟨pa, pb, pc, pd⟩ := p1
        simp [pa, pb, pc, pd]
      · by_cases p2 : (em.respect_odd_to_even_travel_constraint : Prop) ∧
            node_from.id % 2 = 1 ∧ node_to.id % 2 = 0 ∧
            2 * node_from.id ≥ (em.nodes.length : Int)
        · simp only [if_neg h1, if_neg h2, if_neg p1, if_pos p2]
          obtain ⟨pa, pb, pc, pd⟩ := p2
          have hodd : ¬ (node_from.id % 2 = 0) := by omega
          simp [pa, pb, pc, pd, hodd]
        · simp only [if_neg h1, if_neg h2, if_neg p1, if_neg p2]
          rcases Bool.eq_false_or_eq_true em.respect_even_to_odd_travel_constraint with
            f1 | f1 <;>
          rcases Bool.eq_false_or_eq_true em.respect_odd_to_even_travel_constraint with
            f2 | f2 <;>
          simp_all <;> omega

/-! ## Claim C6 -/

/-- Counterexample to claim C6: the claim states that misordered cut
points (for instance `v1 > v2`) make `apply` return the input unchanged;
the code instead *sorts* them and applies the move: on a 4-node route,
`apply(route, v1=2, v2=1)` reverses the middle segment rather than
copying the input. -/
theorem claim_C6_counterexample :
    (TwoOptSwap.applyExplicit r0 2 1).sequence ≠ r0.sequence := by
  decide

/-- Claim C6, amended: explicitly supplied misordered cut points are first
sorted ascending and the move is applied with the sorted cut points (first
and third conjuncts: the result only depends on the sorted parameters); the
input is returned as an unchanged copy — and no exception is raised — only
for cut points out of range after sorting, cut points that are not pairwise
distinct, an out-of-range reconnection variant index, or a route shorter
than the operator's minimum length (second and fourth conjuncts). -/
theorem claim_C6_amended :
    (∀ (r : Route) (v1 v2 : Int),
      TwoOptSwap.applyExplicit r v1 v2 = TwoOptSwap.applyExplicit r v2 v1) ∧
    (∀ (r : Route) (v1 v2 : Int),
      r.sequence.length < TWO_OPT_MIN_ROUTE_LENGTH ∨ min v1 v2 < 1 ∨
        (r.sequence.length : Int) - 1 ≤ max v1 v2 ∨ v1 = v2 →
      (TwoOptSwap.applyExplicit r v1 v2).sequence = r.sequence) ∧
    (∀ (r : Route) (v1 v2 v3 rt : Int),
      ThreeOptSwap.applyExplicit r v1 v2 v3 rt =
        ThreeOptSwap.applyExplicit r (min v1 (min v2 v3))
          (v1 + v2 + v3 - min v1 (min v2 v3) - max v1 (max v2 v3))
          (max v1 (max v2 v3)) rt) ∧
    (∀ (r : Route) (v1 v2 v3 rt : Int),
      r.sequence.length < THREE_OPT_MIN_ROUTE_LENGTH ∨ min v1 (min v2 v3) < 1 ∨
        (r.sequence.length : Int) - 1 ≤ max v1 (max v2 v3) ∨
        (v1 = v2 ∨ v1 = v3 ∨ v2 = v3) ∨ ¬(0 ≤ rt ∧ rt ≤ 7) →
      (ThreeOptSwap.applyExplicit r v1 v2 v3 rt).sequence = r.sequence) := by
  refine ⟨?_, ?_, ?_, ?_⟩
  · intro r v1 v2
    simp only [TwoOptSwap.applyExplicit]
    have h1 : (if v1 > v2 then v2 else v1) = (if v2 > v1 then v1 else v2) := by
      rcases lt_trichotomy v1 v2 with h | h | h
      · rw [if_neg (by omega), if_pos (by omega)]
      · subst h
        simp
      · rw [if_pos (by omega), if_neg (by omega)]
    have h2 : (if v1 > v2 then v1 else v2) = (if v2 > v1 then v2 else v1) := by
      rcases lt_trichotomy v1 v2 with h | h | h
      · rw [if_neg (by omega), if_pos (by omega)]
      · subst h
        simp
      · rw [if_pos (by omega), if_neg (by omega)]
    rw [h1, h2]
  · intro r v1 v2 h
    simp only [TwoOptSwap.applyExplicit, TWO_OPT_MIN_ROUTE_LENGTH] at h ⊢
    by_cases hL : r.sequence.length < 4
    · rw [if_pos hL]
      rfl
    · rw [if_neg hL]
      rcases lt_or_le v2 v1 with hc | hc
      · rw [show (if v1 > v2 then v2 else v1) = v2 from if_pos hc,
          show (if v1 > v2 then v1 else v2) = v1 from if_pos hc,
          if_pos (show v2 < 1 ∨ (r.sequence.length : Int) - 1 ≤ v1 ∨ v1 ≤ v2 by omega)]
        rfl
      · have hc' : ¬ v1 > v2 := not_lt.mpr hc
        rw [show (if v1 > v2 then v2 else v1) = v1 from if_neg hc',
          show (if v1 > v2 then v1 else v2) = v2 from if_neg hc',
          if_pos (show v1 < 1 ∨ (r.sequence.length : Int) - 1 ≤ v2 ∨ v2 ≤ v1 by omega)]
        rfl
  · intro r v1 v2 v3 rt
    simp only [ThreeOptSwap.applyExplicit]
    have hA : min (min v1 (min v2 v3)) (min (v1 + v2 + v3 - min v1 (min v2 v3) -
        max v1 (max v2 v3)) (max v1 (max v2 v3))) = min v1 (min v2 v3) := by omega
    have hC : max (min v1 (min v2 v3)) (max (v1 + v2 + v3 - min v1 (min v2 v3) -
        max v1 (max v2 v3)) (max v1 (max v2 v3))) = max v1 (max v2 v3) := by omega
    rw [hA, hC]
    have hB : min v1 (min v2 v3) + (v1 + v2 + v3 - min v1 (min v2 v3) -
        max v1 (max v2 v3)) + max v1 (max v2 v3) - min v1 (min v2 v3) -
        max v1 (max v2 v3) = v1 + v2 + v3 - min v1 (min v2 v3) - max v1 (max v2 v3) := by
      omega
    rw [hB]
  · intro r v1 v2 v3 rt h
    simp only [ThreeOptSwap.applyExplicit, THREE_OPT_MIN_ROUTE_LENGTH] at h ⊢
    split_ifs with hL hv hrt
    · rfl
    · rfl
    · exfalso
      omega
    · rfl

/-- Witness for the amended claim C6: a concrete out-of-range cut point
(`v1 = 0`) on a 4-node route returns the input sequence unchanged, and a
concrete non-distinct triple does the same for 3-opt. -/
theorem claim_C6_amended_witness :
    (TwoOptSwap.applyExplicit r0 0 2).sequence = r0.sequence ∧
    (ThreeOptSwap.applyExplicit r6 2 2 4 1).sequence = r6.sequence :=
  ⟨claim_C6_amended.2.1 r0 0 2 (Or.inr (Or.inl (by decide))),
   claim_C6_amended.2.2.2 r6 2 2 4 1 (Or.inr (Or.inr (Or.inr (Or.inl (Or.inl rfl)))))⟩

/-! ## Claim C9 -/

/-- `twoOptSeq` on an explicit three-part decomposition: when the prefix
has length `v1` and the middle ends at index `v2`, the move reverses
exactly the middle part. -/
theorem twoOptSeq_append (A M Z : List Node) (na nb : Nat) (hA : A.length = na)
    (hM : na + M.length = nb + 1) :
    twoOptSeq (A ++ (M ++ Z)) na nb = A ++ (M.reverse ++ Z) := by
  have h1 : List.take na (A ++ (M ++ Z)) = A := List.take_left' hA
  have h2 : List.drop na (A ++ (M ++ Z)) = M ++ Z := List.drop_left' hA
  have h3 : List.take (nb + 1 - na) (M ++ Z) = M := List.take_left' (by omega)
  have h4 : List.drop (nb + 1) (A ++ (M ++ Z)) = Z := by
    rw [← List.append_assoc]
    exact List.drop_left' (by simp [hA]; omega)
  unfold twoOptSeq
  rw [h1, h2, h3, h4, List.append_assoc]

/-- Claim C9: for a route of length at least 4 and explicit indices
`1 ≤ v1 < v2 ≤ length - 2`, the segment-reversal `apply` is an involution
— applying it twice with the same `(v1, v2)` restores the original point
sequence — and a single application leaves the prefix before `v1` and the
suffix after `v2` unchanged. -/
theorem claim_C9 (r : Route) (v1 v2 : Int) (h4 : 4 ≤ r.sequence.length)
    (hv1 : 1 ≤ v1) (hv12 : v1 < v2) (hv2 : v2 ≤ (r.sequence.length : Int) - 2) :
    (TwoOptSwap.applyExplicit (TwoOptSwap.applyExplicit r v1 v2) v1 v2).sequence =
      r.sequence ∧
    (TwoOptSwap.applyExplicit r v1 v2).sequence.take v1.toNat =
      r.sequence.take v1.toNat ∧
    (TwoOptSwap.applyExplicit r v1 v2).sequence.drop (v2.toNat + 1) =
      r.sequence.drop (v2.toNat + 1) := by
  set L := r.sequence.length with hLdef
  set na := v1.toNat with hna
  set nb := v2.toNat with hnb
  have hna1 : 1 ≤ na := by omega
  have hnab : na < nb := by omega
  have hnbL : nb + 1 ≤ L - 1 := by omega
  have hL4 : 4 ≤ L := h4
  have happ : ∀ s : Route, s.sequence.length = L →
      TwoOptSwap.applyExplicit s v1 v2 = ⟨s.name, twoOptSeq s.sequence na nb⟩ := by
    intro s hs
    unfold TwoOptSwap.applyExplicit
    rw [hs, if_neg (show ¬ L < TWO_OPT_MIN_ROUTE_LENGTH by
      unfold TWO_OPT_MIN_ROUTE_LENGTH; omega)]
    rw [show (if v1 > v2 then v2 else v1) = v1 from if_neg (by omega),
      show (if v1 > v2 then v1 else v2) = v2 from if_neg (by omega),
      if_neg (show ¬ (v1 < 1 ∨ (L : Int) - 1 ≤ v2 ∨ v2 ≤ v1) by omega)]
  set A := r.sequence.take na with hAdef
  set MZ := r.sequence.drop na with hMZdef
  set M := MZ.take (nb + 1 - na) with hMdef
  set Z := MZ.drop (nb + 1 - na) with hZdef
  have hseq : r.sequence = A ++ (M ++ Z) := by
    rw [hAdef, hMdef, hZdef, List.take_append_drop, hMZdef, List.take_append_drop]
  have hAlen : A.length = na := by
    rw [hAdef]
    simp
    omega
  have hMlen : na + M.length = nb + 1 := by
    rw [hMdef, hMZdef]
    simp
    omega
  have hZeq : Z = r.sequence.drop (nb + 1) := by
    rw [hZdef, hMZdef, List.drop_drop]
    congr 1
    omega
  have hlen1 : (A ++ (M.reverse ++ Z)).length = L := by
    have := congrArg List.length hseq
    simp at this ⊢
    omega
  have hone : TwoOptSwap.applyExplicit r v1 v2 = ⟨r.name, A ++ (M.reverse ++ Z)⟩ := by
    rw [happ r rfl]
    congr 1
    rw [show r.sequence = A ++ (M ++ Z) from hseq]
    exact twoOptSeq_append A M Z na nb hAlen hMlen
  have htwo :
      TwoOptSwap.applyExplicit (⟨r.name, A ++ (M.reverse ++ Z)⟩ : Route) v1 v2 =
        ⟨r.name, A ++ (M ++ Z)⟩ := by
    rw [happ _ hlen1]
    congr 1
    rw [show twoOptSeq (A ++ (M.reverse ++ Z)) na nb = A ++ (M.reverse.reverse ++ Z)
      from twoOptSeq_append A M.reverse Z na nb hAlen (by simpa using hMlen)]
    rw [List.reverse_reverse]
  refine ⟨?_, ?_, ?_⟩
  · rw [hone, htwo, ← hseq]
  · rw [hone]
    show (A ++ (M.reverse ++ Z)).take na = r.sequence.take na
    rw [List.take_left' hAlen, hAdef]
  · rw [hone]
    show (A ++ (M.reverse ++ Z)).drop (nb + 1) = r.sequence.drop (nb + 1)
    rw [← hZeq, ← List.append_assoc]
    exact List.drop_left' (by simp [hAlen]; omega)

/-- Witness for claim C9: the involution and the untouched prefix/suffix
on a concrete 5-node route with `v1 = 1`, `v2 = 3`. -/
theorem claim_C9_witness :
    (TwoOptSwap.applyExplicit (TwoOptSwap.applyExplicit r5 1 3) 1 3).sequence =
      r5.sequence ∧
    (TwoOptSwap.applyExplicit r5 1 3).sequence.take 1 = r5.sequence.take 1 ∧
    (TwoOptSwap.applyExplicit r5 1 3).sequence.drop 4 = r5.sequence.drop 4 :=
  claim_C9 r5 1 3 (by decide) (by decide) (by decide) (by decide)

/-! ## Shared evaluator and operator lemmas -/

/-- A route always has exactly `length - 1` consecutive-pair distances. -/
theorem edgeDistances_length {α : Type} (d : Node → Node → α) (r : Route) :
    (edgeDistances d r).length = r.sequence.length - 1 := by
  simp [edgeDistances]

section EvaluatorLemmas

variable {α : Type} [LinearOrderedCommRing α]

/-- The objective evaluation raises (no value) on routes with fewer than
two points. -/
theorem objective_none_of_short (nm : NodeManager) (d : Node → Node → α) (r : Route)
    (h2 : r.sequence.length < 2) : calculate_objective_value nm d r = none := by
  unfold calculate_objective_value total_distance_and_distances
  rw [if_pos (by unfold MIN_ROUTE_NODES; omega)]
  rfl

/-- The objective evaluation returns a value on every route with at least
two points. -/
theorem objective_some_of_two_le (nm : NodeManager) (d : Node → Node → α) (r : Route)
    (h2 : 2 ≤ r.sequence.length) :
    ∃ v, calculate_objective_value nm d r = some v := by
  obtain ⟨x, xs, hx⟩ : ∃ x xs, edgeDistances d r = x :: xs := by
    cases hxx : edgeDistances d r with
    | nil =>
      have := edgeDistances_length d r
      rw [hxx] at this
      simp at this
      omega
    | cons x xs => exact ⟨x, xs, rfl⟩
  unfold calculate_objective_value total_distance_and_distances
  rw [if_neg (by unfold MIN_ROUTE_NODES; omega)]
  simp only [hx]
  rw [if_neg (by simp)]
  simp only [List.max?_cons', List.min?_cons']
  exact ⟨_, rfl⟩

/-- A route whose objective evaluation returns a value has at least two
points. -/
theorem two_le_of_objective_some (nm : NodeManager) (d : Node → Node → α) (r : Route)
    (v : α) (h : calculate_objective_value nm d r = some v) :
    2 ≤ r.sequence.length := by
  by_contra hc
  rw [objective_none_of_short nm d r (by omega)] at h
  cases h

end EvaluatorLemmas

/-- `TwoOptSwap.applyExplicit` either copies the input or performs a
reversal with in-range sorted cut points. -/
theorem twoOptApplyExplicit_cases (r : Route) (v1 v2 : Int) :
    TwoOptSwap.applyExplicit r v1 v2 = r.copy ∨
    ∃ a b : Nat, 1 ≤ a ∧ a < b ∧ b + 1 ≤ r.sequence.length ∧
      TwoOptSwap.applyExplicit r v1 v2 = ⟨r.name, twoOptSeq r.sequence a b⟩ := by
  unfold TwoOptSwap.applyExplicit
  by_cases hL : r.sequence.length < TWO_OPT_MIN_ROUTE_LENGTH
  · rw [if_pos hL]
    exact Or.inl rfl
  · rw [if_neg hL]
    have hL4 : 4 ≤ r.sequence.length := by
      unfold TWO_OPT_MIN_ROUTE_LENGTH at hL
      omega
    rcases lt_or_le v2 v1 with hc | hc
    · rw [show (if v1 > v2 then v2 else v1) = v2 from if_pos hc,
        show (if v1 > v2 then v1 else v2) = v1 from if_pos hc]
      by_cases hv : v2 < 1 ∨ (r.sequence.length : Int) - 1 ≤ v1 ∨ v1 ≤ v2
      · rw [if_pos hv]
        exact Or.inl rfl
      · rw [if_neg hv]
        exact Or.inr ⟨v2.toNat, v1.toNat, by omega, by omega, by omega, rfl⟩
    · have hc' : ¬ v1 > v2 := not_lt.mpr hc
      rw [show (if v1 > v2 then v2 else v1) = v1 from if_neg hc',
        show (if v1 > v2 then v1 else v2) = v2 from if_neg hc']
      by_cases hv : v1 < 1 ∨ (r.sequence.length : Int) - 1 ≤ v2 ∨ v2 ≤ v1
      · rw [if_pos hv]
        exact Or.inl rfl
      · rw [if_neg hv]
        exact Or.inr ⟨v1.toNat, v2.toNat, by omega, by omega, by omega, rfl⟩

/-- `twoOptSeq` preserves the sequence length for in-range cut points. -/
theorem twoOptSeq_length (seq : List Node) (a b : Nat) (hab : a ≤ b)
    (hbL : b + 1 ≤ seq.length) : (twoOptSeq seq a b).length = seq.length := by
  simp [twoOptSeq]
  omega

/-- `TwoOptSwap.applyExplicit` preserves the route length. -/
theorem twoOptApplyExplicit_length (r : Route) (v1 v2 : Int) :
    (TwoOptSwap.applyExplicit r v1 v2).sequence.length = r.sequence.length := by
  rcases twoOptApplyExplicit_cases r v1 v2 with h | ⟨a, b, ha, hab, hbL, h⟩
  · rw [h]
    rfl
  · rw [h]
    exact twoOptSeq_length r.sequence a b (by omega) hbL

/-- Every reconnection of the four segments has the sum of their lengths. -/
theorem getAllReconnections_length (a b c dseg : List Node) (l : List Node)
    (hl : l ∈ getAllReconnections a b c dseg) :
    l.length = a.length + b.length + c.length + dseg.length := by
  simp only [getAllReconnections, List.mem_cons, List.not_mem_nil, or_false] at hl
  rcases hl with h | h | h | h | h | h | h | h <;> subst h <;> simp <;> omega

/-- `threeOptBuild` preserves the route length for sorted in-range cut
points and a reconnection type in `0..7`. -/
theorem threeOptBuild_length (r : Route) (a b c rt : Int) (h1 : 1 ≤ a) (hab : a ≤ b)
    (hbc : b ≤ c) (hcL : c ≤ (r.sequence.length : Int)) (hrt0 : 0 ≤ rt) (hrt7 : rt ≤ 7) :
    (threeOptBuild r a b c rt).sequence.length = r.sequence.length := by
  unfold threeOptBuild threeOptSegments
  have hmem : (getAllReconnections (r.sequence.take a.toNat)
      ((r.sequence.drop a.toNat).take (b.toNat - a.toNat))
      ((r.sequence.drop b.toNat).take (c.toNat - b.toNat))
      (r.sequence.drop c.toNat)).getD rt.toNat r.sequence ∈
      getAllReconnections (r.sequence.take a.toNat)
      ((r.sequence.drop a.toNat).take (b.toNat - a.toNat))
      ((r.sequence.drop b.toNat).take (c.toNat - b.toNat))
      (r.sequence.drop c.toNat) := by
    have hlt : rt.toNat < 8 := by omega
    have h8 : (getAllReconnections (r.sequence.take a.toNat)
        ((r.sequence.drop a.toNat).take (b.toNat - a.toNat))
        ((r.sequence.drop b.toNat).take (c.toNat - b.toNat))
        (r.sequence.drop c.toNat)).length = 8 := by
      simp [getAllReconnections]
    rw [List.getD_eq_getElem?_getD, List.getElem?_eq_getElem (by omega)]
    exact List.getElem_mem _
  have := getAllReconnections_length _ _ _ _ _ hmem
  rw [this]
  simp
  omega

/-- `ThreeOptSwap.applyExplicit` either copies the input or rebuilds with
sorted in-range cut points and a valid reconnection type. -/
theorem threeOptApplyExplicit_cases (r : Route) (v1 v2 v3 rt : Int) :
    ThreeOptSwap.applyExplicit r v1 v2 v3 rt = r.copy ∨
    ∃ a b c : Int, 1 ≤ a ∧ a < b ∧ b < c ∧ c ≤ (r.sequence.length : Int) - 2 ∧
      0 ≤ rt ∧ rt ≤ 7 ∧
      ThreeOptSwap.applyExplicit r v1 v2 v3 rt = threeOptBuild r a b c rt := by
  simp only [ThreeOptSwap.applyExplicit]
  split_ifs with hL hv hrt
  · exact Or.inl rfl
  · exact Or.inl rfl
  · refine Or.inr ⟨_, _, _, ?_, ?_, ?_, ?_, ?_, ?_, rfl⟩ <;> omega
  · exact Or.inl rfl

/-- `ThreeOptSwap.applyExplicit` preserves the route length. -/
theorem threeOptApplyExplicit_length (r : Route) (v1 v2 v3 rt : Int) :
    (ThreeOptSwap.applyExplicit r v1 v2 v3 rt).sequence.length = r.sequence.length := by
  rcases threeOptApplyExplicit_cases r v1 v2 v3 rt with h | ⟨a, b, c, h1, hab, hbc, hcL,
    hrt0, hrt7, h⟩
  · rw [h]
    rfl
  · rw [h]
    exact threeOptBuild_length r a b c rt h1 (by omega) (by omega) (by omega) hrt0 hrt7

section LoopLemmas

variable {α : Type} [LinearOrderedCommRing α]

/-- The best-improvement fold returns a state whose route evaluates to its
recorded value, never above the initial value, whenever every candidate's
objective is defined. -/
theorem bestLoop_le (nm : NodeManager) (d : Node → Node → α) (oV : Bool)
    (cands : List Route) :
    ∀ st : Route × α,
      (∀ c ∈ cands, ∃ v, calculate_objective_value nm d c = some v) →
      calculate_objective_value nm d st.1 = some st.2 →
      ∃ st', bestLoop nm d oV cands st = some st' ∧
        calculate_objective_value nm d st'.1 = some st'.2 ∧ st'.2 ≤ st.2 := by
  induction cands with
  | nil =>
    intro st _ hst
    exact ⟨st, rfl, hst, le_refl _⟩
  | cons c rest ih =>
    intro st hall hst
    simp only [bestLoop]
    by_cases hskip : (oV && !(is_valid_route nm c)) = true
    · rw [if_pos hskip]
      exact ih st (fun c' hc' => hall c' (List.mem_cons_of_mem _ hc')) hst
    · rw [if_neg hskip]
      obtain ⟨v, hv⟩ := hall c (List.mem_cons_self _ _)
      rw [hv]
      dsimp only
      by_cases himp : v < st.2
      · rw [if_pos himp]
        obtain ⟨st', h1, h2, h3⟩ :=
          ih (c, v) (fun c' hc' => hall c' (List.mem_cons_of_mem _ hc')) hv
        exact ⟨st', h1, h2, le_trans h3 (le_of_lt himp)⟩
      · rw [if_neg himp]
        exact ih st (fun c' hc' => hall c' (List.mem_cons_of_mem _ hc')) hst

/-- When no enumerated candidate that passes the validity filter has an
objective strictly below the running state's value, the best-improvement
fold returns the state unchanged. -/
theorem bestLoop_no_improve (nm : NodeManager) (d : Node → Node → α) (oV : Bool)
    (cands : List Route) :
    ∀ st : Route × α,
      (∀ c ∈ cands, ∃ v, calculate_objective_value nm d c = some v) →
      (∀ c ∈ cands, (oV = true → is_valid_route nm c = true) →
        ∀ v, calculate_objective_value nm d c = some v → st.2 ≤ v) →
      bestLoop nm d oV cands st = some st := by
  induction cands with
  | nil =>
    intro st _ _
    rfl
  | cons c rest ih =>
    intro st hall hno
    simp only [bestLoop]
    by_cases hskip : (oV && !(is_valid_route nm c)) = true
    · rw [if_pos hskip]
      exact ih st (fun c' hc' => hall c' (List.mem_cons_of_mem _ hc'))
        (fun c' hc' => hno c' (List.mem_cons_of_mem _ hc'))
    · rw [if_neg hskip]
      obtain ⟨v, hv⟩ := hall c (List.mem_cons_self _ _)
      rw [hv]
      dsimp only
      have hvalid : oV = true → is_valid_route nm c = true := by
        intro hoV
        cases hvb : is_valid_route nm c with
        | false => exact absurd (by rw [hoV, hvb]; rfl) hskip
        | true => rfl
      have hle : st.2 ≤ v := hno c (List.mem_cons_self _ _) hvalid v hv
      rw [if_neg (not_lt.mpr hle)]
      exact ih st (fun c' hc' => hall c' (List.mem_cons_of_mem _ hc'))
        (fun c' hc' => hno c' (List.mem_cons_of_mem _ hc'))

/-- The first-improvement scan returns exactly the first candidate in
enumeration order that passes the validity filter and strictly improves on
`v0`, or the base route when none does. -/
theorem firstLoop_eq_find (nm : NodeManager) (d : Node → Node → α) (oV : Bool)
    (v0 : α) (base : Route) (cands : List Route) :
    (∀ c ∈ cands, ∃ v, calculate_objective_value nm d c = some v) →
    firstLoop nm d oV v0 base cands =
      some ((cands.find? (improvingCandidate nm d oV v0)).getD base) := by
  induction cands with
  | nil =>
    intro _
    rfl
  | cons c rest ih =>
    intro hall
    simp only [firstLoop]
    obtain ⟨v, hv⟩ := hall c (List.mem_cons_self _ _)
    by_cases hskip : (oV && !(is_valid_route nm c)) = true
    · rw [if_pos hskip]
      have himp : improvingCandidate nm d oV v0 c = false := by
        obtain ⟨hoV, hnv⟩ := (Bool.and_eq_true _ _).mp hskip
        have hvf : is_valid_route nm c = false := by
          cases hvb : is_valid_route nm c with
          | false => rfl
          | true => simp [hvb] at hnv
        unfold improvingCandidate
        rw [hoV, hvf]
        rfl
      rw [List.find?_cons_of_neg _ (by simp [himp])]
      exact ih (fun c' hc' => hall c' (List.mem_cons_of_mem _ hc'))
    · rw [if_neg hskip]
      rw [hv]
      dsimp only
      have hfirst : (!oV || is_valid_route nm c) = true := by
        cases hoV : oV with
        | false => rfl
        | true =>
          cases hvb : is_valid_route nm c with
          | false => exact absurd (by rw [hoV, hvb]; rfl) hskip
          | true => rfl
      by_cases himp : v < v0
      · rw [if_pos himp]
        have : improvingCandidate nm d oV v0 c = true := by
          unfold improvingCandidate
          rw [hv, hfirst]
          simp [himp]
        rw [List.find?_cons_of_pos _ this]
        rfl
      · rw [if_neg himp]
        have : improvingCandidate nm d oV v0 c = false := by
          unfold improvingCandidate
          rw [hv, hfirst]
          simp [himp]
        rw [List.find?_cons_of_neg _ (by simp [this])]
        exact ih (fun c' hc' => hall c' (List.mem_cons_of_mem _ hc'))

/-- Every 2-opt candidate of a route with a defined objective has a
defined objective itself. -/
theorem twoOptCandidates_some (nm : NodeManager) (d : Node → Node → α) (r : Route)
    (h2 : 2 ≤ r.sequence.length) :
    ∀ c ∈ twoOptCandidates r, ∃ v, calculate_objective_value nm d c = some v := by
  intro c hc
  obtain ⟨p, _, rfl⟩ := List.mem_map.mp hc
  exact objective_some_of_two_le nm d _ (by rw [twoOptApplyExplicit_length]; omega)

/-- Every 3-opt candidate of a route with a defined objective has a
defined objective itself. -/
theorem threeOptCandidates_some (nm : NodeManager) (d : Node → Node → α) (r : Route)
    (h2 : 2 ≤ r.sequence.length) :
    ∀ c ∈ threeOptCandidates r, ∃ v, calculate_objective_value nm d c = some v := by
  intro c hc
  obtain ⟨p, _, rfl⟩ := List.mem_map.mp hc
  exact objective_some_of_two_le nm d _ (by rw [threeOptApplyExplicit_length]; omega)

end LoopLemmas

/-! ## Claim C1 -/

section ClaimC1

variable {α : Type} [LinearOrderedCommRing α]

/-- The nested maximum loop of `get_l_value` computes the fold of `max`
over the list of all unordered pairs. -/
theorem maxDistanceLoop_eq_foldl (d : Node → Node → α) (l : List Node) (m : α) :
    maxDistanceLoop d l m = ((unorderedPairs l).map fun p => d p.1 p.2).foldl max m := by
  induction l generalizing m with
  | nil => rfl
  | cons x xs ih =>
    simp only [maxDistanceLoop, unorderedPairs, List.map_append, List.foldl_append,
      List.map_map]
    rw [ih]
    congr 1
    rw [List.foldl_map]
    rfl

/-- `get_l_value` is the registry-wide maximum pairwise distance times the
intermediate count. -/
theorem get_l_value_eq (nm : NodeManager) (d : Node → Node → α) :
    get_l_value nm d =
      maxPairwiseDistance nm d * (((nm.nodes.length : Int) - 2 : Int) : α) := by
  unfold get_l_value maxPairwiseDistance
  rw [maxDistanceLoop_eq_foldl]

/-- The running-total fold of the evaluator is the list sum. -/
theorem foldl_add_eq_sum (l : List α) (a : α) : l.foldl (· + ·) a = a + l.sum := by
  induction l generalizing a with
  | nil => simp
  | cons x xs ih => simp [ih, add_assoc]

/-- Claim C1: for a route with at least one edge, the objective value is
`L · (max(edges) − min(edges)) + sum(edges)` with
`L = max_pairwise_distance · n`, the maximum taken over all unordered
registry pairs and `n` the registry size minus the two depots; for a route
with zero edges the evaluation raises (returns no value). -/
theorem claim_C1 (nm : NodeManager) (d : Node → Node → α) (r : Route) :
    (2 ≤ r.sequence.length →
      ∃ mx mn, (edgeDistances d r).max? = some mx ∧ (edgeDistances d r).min? = some mn ∧
        calculate_objective_value nm d r =
          some (maxPairwiseDistance nm d * (((nm.nodes.length : Int) - 2 : Int) : α) *
              (mx - mn) + (edgeDistances d r).sum)) ∧
    (r.sequence.length < 2 → calculate_objective_value nm d r = none) := by
  constructor
  · intro h2
    have hne : edgeDistances d r ≠ [] := by
      unfold edgeDistances
      intro hc
      have := congrArg List.length hc
      simp at this
      omega
    obtain ⟨x, xs, hx⟩ : ∃ x xs, edgeDistances d r = x :: xs := by
      cases hxx : edgeDistances d r with
      | nil => exact absurd hxx hne
      | cons x xs => exact ⟨x, xs, rfl⟩
    have hL : ¬ (r.sequence.length < MIN_ROUTE_NODES) := by
      unfold MIN_ROUTE_NODES
      omega
    have htd : total_distance_and_distances d r =
        ((x :: xs).foldl (· + ·) 0, x :: xs) := by
      unfold total_distance_and_distances
      rw [if_neg hL]
      simp only [hx]
      rw [if_neg (by simp)]
    refine ⟨xs.foldl max x, xs.foldl min x, ?_, ?_, ?_⟩
    · rw [hx, List.max?_cons']
    · rw [hx, List.min?_cons']
    · unfold calculate_objective_value
      rw [htd]
      simp only [List.max?_cons', List.min?_cons']
      rw [get_l_value_eq, foldl_add_eq_sum, zero_add, hx]
  · intro h2
    unfold calculate_objective_value total_distance_and_distances
    rw [if_pos (by unfold MIN_ROUTE_NODES; omega)]
    rfl

end ClaimC1

/-- Witness for claim C1: the objective of the valid route `0-2-1-3` on the
3-4-5 rectangle registry (edge distances `[5, 4, 5]`, `L = 5 · 2`) is
`10 · (5 − 4) + 14 = 24`, matching the claim's formula, and a one-point
route evaluates to no value. -/
theorem claim_C1_witness :
    (∃ mx mn, (edgeDistances d4 r0).max? = some mx ∧ (edgeDistances d4 r0).min? = some mn ∧
      calculate_objective_value nm4 d4 r0 =
        some (maxPairwiseDistance nm4 d4 * (((nm4.nodes.length : Int) - 2 : Int) : Int) *
            (mx - mn) + (edgeDistances d4 r0).sum)) ∧
    calculate_objective_value nm4 d4 ⟨"short", [nodeA]⟩ = none :=
  ⟨(claim_C1 nm4 d4 r0).1 (by decide),
   (claim_C1 nm4 d4 ⟨"short", [nodeA]⟩).2 (by decide)⟩

/-! ## Claim C4 -/

/-- Claim C4: on every route with a defined objective,
`apply_best_improvement` of either operator returns a route whose
objective is never strictly greater than the input's (first two
conjuncts); and when no enumerated candidate that passes the validity
filter has a strictly lower objective, the returned route is a copy of the
input with an identical point sequence (last two conjuncts). -/
theorem claim_C4 {α : Type} [LinearOrderedCommRing α] (nm : NodeManager)
    (d : Node → Node → α) (r : Route) (only_valid : Bool) (v0 : α)
    (h : calculate_objective_value nm d r = some v0) :
    (∃ r' v', TwoOptSwap.apply_best_improvement nm d r only_valid = some r' ∧
      calculate_objective_value nm d r' = some v' ∧ v' ≤ v0) ∧
    (∃ r' v', ThreeOptSwap.apply_best_improvement nm d r only_valid = some r' ∧
      calculate_objective_value nm d r' = some v' ∧ v' ≤ v0) ∧
    ((∀ c ∈ twoOptCandidates r, (only_valid = true → is_valid_route nm c = true) →
        ∀ v, calculate_objective_value nm d c = some v → v0 ≤ v) →
      TwoOptSwap.apply_best_improvement nm d r only_valid = some r.copy ∧
        r.copy.sequence = r.sequence) ∧
    ((∀ c ∈ threeOptCandidates r, (only_valid = true → is_valid_route nm c = true) →
        ∀ v, calculate_objective_value nm d c = some v → v0 ≤ v) →
      ThreeOptSwap.apply_best_improvement nm d r only_valid = some r.copy ∧
        r.copy.sequence = r.sequence) := by
  have h2 : 2 ≤ r.sequence.length := two_le_of_objective_some nm d r v0 h
  have hcopy : calculate_objective_value nm d (r.copy) = some v0 := h
  refine ⟨?_, ?_, ?_, ?_⟩
  · obtain ⟨st', h1', h2', h3'⟩ := bestLoop_le nm d only_valid (twoOptCandidates r)
      (r.copy, v0) (twoOptCandidates_some nm d r h2) hcopy
    refine ⟨st'.1, st'.2, ?_, h2', h3'⟩
    unfold TwoOptSwap.apply_best_improvement
    rw [h]
    dsimp only
    rw [h1']
    rfl
  · obtain ⟨st', h1', h2', h3'⟩ := bestLoop_le nm d only_valid (threeOptCandidates r)
      (r.copy, v0) (threeOptCandidates_some nm d r h2) hcopy
    refine ⟨st'.1, st'.2, ?_, h2', h3'⟩
    unfold ThreeOptSwap.apply_best_improvement
    rw [h]
    dsimp only
    rw [h1']
    rfl
  · intro hno
    refine ⟨?_, rfl⟩
    unfold TwoOptSwap.apply_best_improvement
    rw [h]
    dsimp only
    rw [bestLoop_no_improve nm d only_valid (twoOptCandidates r) (r.copy, v0)
      (twoOptCandidates_some nm d r h2) hno]
    rfl
  · intro hno
    refine ⟨?_, rfl⟩
    unfold ThreeOptSwap.apply_best_improvement
    rw [h]
    dsimp only
    rw [bestLoop_no_improve nm d only_valid (threeOptCandidates r) (r.copy, v0)
      (threeOptCandidates_some nm d r h2) hno]
    rfl

/-- Witness for claim C4: on the rectangle registry and the valid route
`0-2-1-3` (objective 24), both operators' best-improvement searches return
a route with objective at most 24. -/
theorem claim_C4_witness :
    ∃ r' v', TwoOptSwap.apply_best_improvement nm4 d4 r0 true = some r' ∧
      calculate_objective_value nm4 d4 r' = some v' ∧ v' ≤ 24 :=
  (claim_C4 nm4 d4 r0 true 24 (by decide)).1

/-! ## Claim C5 -/

/-- Claim C5: on every route with a defined objective,
`apply_first_improvement` returns exactly the first candidate, in the
canonical enumeration order (2-opt: `v1` ascending from 1, nested `v2`
ascending from `v1+1`; 3-opt: `v1`, nested `v2`, nested `v3` ascending,
nested reconnection type 1..7, type 0 excluded — the orders embodied in
`twoOptCandidates` / `threeOptCandidates`), whose objective is strictly
below the input's, skipping structurally invalid candidates when
`only_valid`; when no candidate improves, the input route itself is
returned. -/
theorem claim_C5 {α : Type} [LinearOrderedCommRing α] (nm : NodeManager)
    (d : Node → Node → α) (r : Route) (only_valid : Bool) (v0 : α)
    (h : calculate_objective_value nm d r = some v0) :
    TwoOptSwap.apply_first_improvement nm d r only_valid =
      some (((twoOptCandidates r).find? (improvingCandidate nm d only_valid v0)).getD r) ∧
    ThreeOptSwap.apply_first_improvement nm d r only_valid =
      some (((threeOptCandidates r).find? (improvingCandidate nm d only_valid v0)).getD r) := by
  have h2 : 2 ≤ r.sequence.length := two_le_of_objective_some nm d r v0 h
  constructor
  · unfold TwoOptSwap.apply_first_improvement
    rw [h]
    dsimp only
    exact firstLoop_eq_find nm d only_valid v0 r (twoOptCandidates r)
      (twoOptCandidates_some nm d r h2)
  · unfold ThreeOptSwap.apply_first_improvement
    rw [h]
    dsimp only
    exact firstLoop_eq_find nm d only_valid v0 r (threeOptCandidates r)
      (threeOptCandidates_some nm d r h2)

/-- Witness for claim C5: with validity filtering on, the route `0-2-1-3`
admits no valid improving 2-opt or 3-opt candidate, so both
first-improvement searches return the input route itself. -/
theorem claim_C5_witness :
    TwoOptSwap.apply_first_improvement nm4 d4 r0 true =
      some (((twoOptCandidates r0).find? (improvingCandidate nm4 d4 true 24)).getD r0) ∧
    ThreeOptSwap.apply_first_improvement nm4 d4 r0 true =
      some (((threeOptCandidates r0).find? (improvingCandidate nm4 d4 true 24)).getD r0) :=
  claim_C5 nm4 d4 r0 true 24 (by decide)
